import Mathlib

/-!
Shallow embedding of the batch job coordinator and outcome encoder of
`qiskit_aqt_provider/aqt_job_new.py`.

The embedding models:
* the per-circuit lifecycle states (`JobFinished`, `JobFailed`, `JobQueued`,
  `JobOngoing`, `JobCancelled`) as the inductive `JobState`, with their
  Qiskit `JobStatus` tags as the inductive `JobStatus`;
* poll-response decoding (`AQTJobNew._status_single`) as `statusSingle`;
* a refresh round (`AQTJobNew.status`), which submits one poll per entry of
  the `_jobs` dict, as `polledJobIds` / `refreshRound`;
* status aggregation (`AQTJobNew._aggregate_status`) as `aggregateStatus`;
* the failed-job report (`AQTJobNew.failed_jobs`) as `failedJobs`;
* the outcome encoder (`_shot_to_int`, `_format_counts`,
  `_build_memory_mapping`) as `shotToInt`, `formatCounts`,
  `buildMemoryMapping`;
* result assembly (`AQTJobNew.result`) as `jobResult`.

Python dicts are modelled as insertion-ordered association lists; raising an
exception is modelled by `Except.error`.
-/

namespace AqtJobNew

/-- Qiskit `JobStatus` tags carried by the job lifecycle states
(only the tags used in `aqt_job_new.py`). -/
inductive JobStatus where
  | queued
  | running
  | cancelled
  | done
  | error
deriving DecidableEq, Repr

/-- The per-circuit lifecycle state: the tagged variants `JobFinished`,
`JobFailed`, `JobQueued`, `JobOngoing`, `JobCancelled` of `aqt_job_new.py`. -/
inductive JobState where
  | finished (samples : List (List Nat))
  | failed (err : String)
  | queued
  | ongoing
  | cancelled
deriving DecidableEq, Repr

/-- The `status` class attribute of each lifecycle variant. -/
def JobState.statusOf : JobState → JobStatus
  | .finished _ => .done
  | .failed _ => .error
  | .queued => .queued
  | .ongoing => .running
  | .cancelled => .cancelled

/-- Terminal Qiskit statuses (`JobV1.wait_for_final_state` stops on
DONE, CANCELLED or ERROR). -/
def JobStatus.isTerminal : JobStatus → Bool
  | .done => true
  | .cancelled => true
  | .error => true
  | .queued => false
  | .running => false

/-- The `_jobs` dict of `AQTJobNew`: remote job id to lifecycle state,
in submission (insertion) order. -/
abbrev JobsMap := List (String × JobState)

/-- `AQTJobNew._aggregate_status`: the if-chain from the source, applied to
the list of the individual circuit statuses (in `_jobs` order). -/
def aggregateStatus (statuses : List JobStatus) : JobStatus :=
  if statuses.any (· = JobStatus.error) then JobStatus.error
  else if statuses.any (· = JobStatus.cancelled) then JobStatus.cancelled
  else if statuses.any (· = JobStatus.running) then JobStatus.running
  else if statuses.all (· = JobStatus.queued) then JobStatus.queued
  else if statuses.all (· = JobStatus.done) then JobStatus.done
  else JobStatus.queued

/-- The statuses of all jobs of a `_jobs` dict, in insertion order
(`[payload.status for payload in self._jobs.values()]`). -/
def jobStatuses (jobs : JobsMap) : List JobStatus :=
  jobs.map (fun p => p.2.statusOf)

/-- The `response` part of the payload returned by `AQTResource.result`:
its `result` field holds shot vectors when the status is "finished" and
an error payload (stringified on use) when the status is "error". -/
inductive ApiResult where
  | samples (s : List (List Nat))
  | text (t : String)
deriving DecidableEq, Repr

/-- `response["result"]` read as shot samples (as done on status "finished"). -/
def ApiResult.asSamples : ApiResult → List (List Nat)
  | .samples s => s
  | .text _ => []

/-- `str(response["result"])` (as done on status "error"). -/
def ApiResult.asText : ApiResult → String
  | .samples _ => ""
  | .text t => t

/-- A poll response: `response["status"]` and `response["result"]`. -/
structure ApiResponse where
  status : String
  result : ApiResult
deriving DecidableEq, Repr

/-- `AQTJobNew._status_single`, decoding part: the new lifecycle state stored
for a job given the poll response; an unknown status string raises
`RuntimeError`. The previous state of the job is not consulted. -/
def statusSingle (response : ApiResponse) : Except String JobState :=
  if response.status = "finished" then
    Except.ok (JobState.finished response.result.asSamples)
  else if response.status = "error" then
    Except.ok (JobState.failed response.result.asText)
  else if response.status = "queued" then
    Except.ok JobState.queued
  else if response.status = "ongoing" then
    Except.ok JobState.ongoing
  else
    Except.error ("API returned unknown job status: " ++ response.status ++ ".")

/-- The job ids polled by one `AQTJobNew.status` refresh round:
`for job_id in self._jobs` — every entry of the dict. -/
def polledJobIds (jobs : JobsMap) : List String :=
  jobs.map (fun p => p.1)

/-- One refresh round of `AQTJobNew.status`, given the poll responses as a
function of the job id: each job's state is replaced by the decoded response;
a `RuntimeError` inside the worker (unknown status) is swallowed by the
executor and leaves the state unchanged. -/
def refreshRound (jobs : JobsMap) (responses : String → ApiResponse) : JobsMap :=
  jobs.map (fun p =>
    match statusSingle (responses p.1) with
    | Except.ok s => (p.1, s)
    | Except.error _ => p)

/-- `AQTJobNew.failed_jobs`: map of failed job ids to error reports. -/
def failedJobs (jobs : JobsMap) : List (String × String) :=
  jobs.filterMap (fun p =>
    match p.2 with
    | JobState.failed e => some (p.1, e)
    | _ => none)

/-! ## Outcome encoder (`_shot_to_int`, `_format_counts`) -/

/-- Python set equality for sets of naturals given as lists:
`set a == set b`. -/
def natSetEq (a b : List Nat) : Bool :=
  a.all (fun x => b.contains x) && b.all (fun x => a.contains x)

/-- The zero-initialized classical register of `_shot_to_int`:
`[0] * (max(tr_map.values()) + 1)`, then `creg[dest] = fluorescence_states[src]`
for the map's items in insertion order. -/
def applyWrites (fluor : List Nat) (trMap : List (Nat × Nat)) : List Nat :=
  trMap.foldl (fun creg p => creg.set p.2 (fluor.getD p.1 0))
    (List.replicate ((trMap.map (fun p => p.2)).foldl Nat.max 0 + 1) 0)

/-- `(np.left_shift(1, np.arange(len(creg))) * creg).sum()`:
the little-endian integer value of the register. -/
def cregValue (creg : List Nat) : Nat :=
  ((List.range creg.length).map (fun i => 2 ^ i * creg.getD i 0)).sum

/-- `_shot_to_int`: format one shot's fluorescence states as an integer,
optionally through the qubit-to-classical-bit translation map (an empty map
plays the role of Python's `None`/`{}`, both falsy). -/
def shotToInt (fluor : List Nat) (qubitToBit : List (Nat × Nat)) :
    Except String Nat :=
  if qubitToBit ≠ [] then
    if natSetEq (qubitToBit.map (fun p => p.1)) (List.range fluor.length) = false then
      Except.error "Map must be injective."
    else
      Except.ok (cregValue (applyWrites fluor qubitToBit))
  else
    Except.ok (cregValue fluor)

/-- Python's `hex` on a natural number: lowercase digits after "0x". -/
def hexStr (n : Nat) : String :=
  "0x" ++ String.mk (Nat.toDigits 16 n)

/-- `hex(_shot_to_int(shot, qubit_to_bit))`: the counts key of one shot. -/
def shotKey (fluor : List Nat) (qubitToBit : List (Nat × Nat)) :
    Except String String :=
  (shotToInt fluor qubitToBit).map hexStr

/-- Encode every shot of a unit to its counts key; the first failing shot's
exception propagates (the `Counter` consumes the generator in order). -/
def encodeAll (samples : List (List Nat)) (qubitToBit : List (Nat × Nat)) :
    Except String (List String) :=
  match samples with
  | [] => Except.ok []
  | shot :: rest =>
    match shotToInt shot qubitToBit with
    | Except.error e => Except.error e
    | Except.ok v => (encodeAll rest qubitToBit).map (fun ks => hexStr v :: ks)

/-- One `Counter` update: bump the key if present, else append it with
count 1 (dict keys are unique, ordered by first encounter). -/
def dictIncr : List (String × Nat) → String → List (String × Nat)
  | [], k => [(k, 1)]
  | p :: rest, k =>
    if p.1 = k then (p.1, p.2 + 1) :: rest else p :: dictIncr rest k

/-- `Counter(keys)` as an insertion-ordered association list. -/
def countKeys (keys : List String) : List (String × Nat) :=
  keys.foldl dictIncr []

/-- `_format_counts`: keys are the hex encodings of the shots, values their
occurrence counts. -/
def formatCounts (samples : List (List Nat)) (qubitToBit : List (Nat × Nat)) :
    Except String (List (String × Nat)) :=
  (encodeAll samples qubitToBit).map countKeys

/-! ## Memory mapping and result assembly (`_build_memory_mapping`, `result`) -/

/-- The part of a `QuantumCircuit` consumed by `AQTJobNew.result`:
the classical register width, the circuit name, and the `(qubit, clbit)`
index pairs of its measurement instructions, in program order. -/
structure CircuitInfo where
  numClbits : Nat
  name : String
  measurements : List (Nat × Nat)
deriving DecidableEq, Repr

/-- One assignment `qu2cl[qubit] = clbit` on an insertion-ordered dict:
an existing key is updated in place, a new key is appended. -/
def dictAssign (l : List (Nat × Nat)) (k v : Nat) : List (Nat × Nat) :=
  if l.any (fun p => p.1 = k) then
    l.map (fun p => if p.1 = k then (k, v) else p)
  else
    l ++ [(k, v)]

/-- `_build_memory_mapping`: fold the measurement instructions into the
qubit-to-clbit dict; later measurements of the same qubit take precedence. -/
def buildMemoryMapping (circuit : CircuitInfo) : List (Nat × Nat) :=
  circuit.measurements.foldl (fun m p => dictAssign m p.1 p.2) []

/-- One entry of the `results` list assembled by `AQTJobNew.result`.
`counts` is `data["counts"]`, present only for finished circuits. -/
structure ExpResult where
  shots : Nat
  success : Bool
  status : JobStatus
  counts : Option (List (String × Nat))
  memorySlots : Nat
  name : String
deriving DecidableEq, Repr

/-- The combined `Result` object built by `AQTJobNew.result`. -/
structure BatchResult where
  success : Bool
  results : List ExpResult
deriving DecidableEq, Repr

/-- The `results` loop of `AQTJobNew.result`, over
`zip(self.circuits, self._jobs.values())`; a `ValueError` raised by
`_format_counts` propagates. -/
def buildExperiments (shots : Nat) :
    List (CircuitInfo × JobState) → Except String (List ExpResult)
  | [] => Except.ok []
  | (circuit, res) :: rest => do
    let counts ← match res with
      | JobState.finished samples =>
        (formatCounts samples (buildMemoryMapping circuit)).map some
      | _ => Except.ok (none : Option (List (String × Nat)))
    let tail ← buildExperiments shots rest
    Except.ok
      ({ shots := shots
         success := decide (res.statusOf = JobStatus.done)
         status := res.statusOf
         counts := counts
         memorySlots := circuit.numClbits
         name := circuit.name } :: tail)

/-- `AQTJobNew.result`, after `wait_for_final_state` has returned: aggregate
the status; if it is not DONE raise `RuntimeError`, otherwise assemble the
combined result in submission order. -/
def jobResult (shots : Nat) (circuits : List CircuitInfo) (jobs : JobsMap) :
    Except String BatchResult :=
  let aggStatus := aggregateStatus (jobStatuses jobs)
  if aggStatus ≠ JobStatus.done then
    Except.error "An error occurred during at least one circuit evaluation."
  else
    (buildExperiments shots (circuits.zip (jobs.map (fun p => p.2)))).map
      (fun rs => { success := decide (aggStatus = JobStatus.done), results := rs })

/-! ## Definitions written from the spec's words (for refinement claims) -/

/-- Modelled from the spec: `refresh()` issues one poll "for every Unit whose
state is non-terminal" — the spec-side polled set, to compare with
`polledJobIds`. -/
def specPolledIds (jobs : JobsMap) : List String :=
  (jobs.filter (fun p => ¬ p.2.statusOf.isTerminal)).map (fun p => p.1)

/-- The little-endian reading of a bit vector, spec side: "destination
position 0 contributes value 1, position 1 contributes value 2, etc.". -/
def lsbValue : List Nat → Nat
  | [] => 0
  | b :: rest => b + 2 * lsbValue rest

/-! ## Helper lemmas -/

theorem any_status_iff (l : List JobStatus) (x : JobStatus) :
    l.any (· = x) = true ↔ ∃ s ∈ l, s = x := by
  simp [List.any_eq_true]

theorem all_status_iff (l : List JobStatus) (x : JobStatus) :
    l.all (· = x) = true ↔ ∀ s ∈ l, s = x := by
  simp [List.all_eq_true]

theorem any_status_false {l : List JobStatus} {x : JobStatus}
    (h : ¬ ∃ s ∈ l, s = x) : l.any (· = x) = false :=
  Bool.eq_false_iff.mpr (fun hy => h ((any_status_iff l x).mp hy))

theorem all_status_false {l : List JobStatus} {x : JobStatus}
    (h : ¬ ∀ s ∈ l, s = x) : l.all (· = x) = false :=
  Bool.eq_false_iff.mpr (fun hy => h ((all_status_iff l x).mp hy))

theorem natSetEq_true_iff (a b : List Nat) :
    natSetEq a b = true ↔ ∀ x, x ∈ a ↔ x ∈ b := by
  simp only [natSetEq, Bool.and_eq_true, List.all_eq_true, List.elem_iff]
  constructor
  · rintro ⟨h1, h2⟩ x
    exact ⟨fun hx => h1 x hx, fun hx => h2 x hx⟩
  · intro h
    exact ⟨fun x hx => (h x).mp hx, fun x hx => (h x).mpr hx⟩

theorem cregValue_eq_lsbValue (l : List Nat) : cregValue l = lsbValue l := by
  induction l with
  | nil => rfl
  | cons b rest ih =>
    unfold cregValue lsbValue
    rw [List.length_cons, List.range_succ_eq_map]
    simp only [List.map_cons, List.map_map, List.sum_cons, pow_zero, one_mul,
      List.getD_cons_zero]
    rw [← ih]
    unfold cregValue
    congr 1
    rw [← List.sum_map_mul_left]
    congr 1
    apply List.map_congr_left
    intro i hi
    simp only [Function.comp_apply, List.getD_cons_succ, pow_succ]
    ring

theorem foldl_set_length (fluor : List Nat) (t : List (Nat × Nat))
    (init : List Nat) :
    (t.foldl (fun c p => c.set p.2 (fluor.getD p.1 0)) init).length
      = init.length := by
  induction t generalizing init with
  | nil => rfl
  | cons q rest ih => rw [List.foldl_cons, ih, List.length_set]

theorem foldl_set_getD_notmem (fluor : List Nat) (t : List (Nat × Nat))
    (init : List Nat) (d : Nat) (hd : d ∉ t.map (fun p => p.2)) :
    (t.foldl (fun c p => c.set p.2 (fluor.getD p.1 0)) init).getD d 0
      = init.getD d 0 := by
  induction t generalizing init with
  | nil => rfl
  | cons q rest ih =>
    simp only [List.map_cons, List.mem_cons, not_or] at hd
    rw [List.foldl_cons, ih _ hd.2]
    simp [List.getD_eq_getElem?_getD, List.getElem?_set_ne (Ne.symm hd.1)]

theorem getD_replicate_zero (n d : Nat) :
    (List.replicate n 0).getD d 0 = 0 := by
  simp only [List.getD_eq_getElem?_getD, List.getElem?_replicate]
  split <;> rfl

theorem getD_set_self_of_lt (l : List Nat) (i a : Nat) (h : i < l.length) :
    (l.set i a).getD i 0 = a := by
  simp [List.getD_eq_getElem?_getD, List.getElem?_set_self, h]

theorem foldl_set_getD_mem (fluor : List Nat) (t : List (Nat × Nat)) :
    ∀ init : List Nat, (t.map (fun p => p.2)).Nodup →
      ∀ p ∈ t, p.2 < init.length →
      (t.foldl (fun c q => c.set q.2 (fluor.getD q.1 0)) init).getD p.2 0
        = fluor.getD p.1 0 := by
  induction t with
  | nil => intro init _ p hp; exact absurd hp (List.not_mem_nil p)
  | cons q rest ih =>
    intro init hnd p hp hlt
    simp only [List.map_cons, List.nodup_cons] at hnd
    rw [List.foldl_cons]
    rcases List.mem_cons.mp hp with rfl | hmem
    · rw [foldl_set_getD_notmem fluor rest _ _ hnd.1]
      exact getD_set_self_of_lt init p.2 _ hlt
    · exact ih (init.set q.2 (fluor.getD q.1 0)) hnd.2 p hmem
        (by simpa [List.length_set] using hlt)

theorem foldl_max_le_init (l : List Nat) (a : Nat) : a ≤ l.foldl Nat.max a := by
  induction l generalizing a with
  | nil => exact Nat.le_refl a
  | cons x rest ih => exact Nat.le_trans (Nat.le_max_left a x) (ih (Nat.max a x))

theorem mem_le_foldl_max (l : List Nat) :
    ∀ a x : Nat, x ∈ l → x ≤ l.foldl Nat.max a := by
  induction l with
  | nil => intro a x hx; exact absurd hx (List.not_mem_nil x)
  | cons y rest ih =>
    intro a x hx
    rw [List.foldl_cons]
    rcases List.mem_cons.mp hx with rfl | hmem
    · exact Nat.le_trans (Nat.le_max_right a x) (foldl_max_le_init rest (Nat.max a x))
    · exact ih (Nat.max a y) x hmem

theorem encodeAll_ok (samples : List (List Nat)) (t : List (Nat × Nat))
    (h : ∀ s ∈ samples, (shotToInt s t).isOk = true) :
    ∃ ks, encodeAll samples t = Except.ok ks
        ∧ ks.length = samples.length := by
  induction samples with
  | nil => exact ⟨[], rfl, rfl⟩
  | cons s rest ih =>
    have hs := h s (List.mem_cons_self s rest)
    obtain ⟨v, hv⟩ : ∃ v, shotToInt s t = Except.ok v := by
      cases hx : shotToInt s t with
      | ok v => exact ⟨v, rfl⟩
      | error e => rw [hx] at hs; exact absurd hs (by simp [Except.isOk, Except.toBool])
    obtain ⟨ks, hks, hkl⟩ := ih (fun x hx => h x (List.mem_cons_of_mem s hx))
    refine ⟨hexStr v :: ks, ?_, by simp [hkl]⟩
    unfold encodeAll
    rw [hv, hks]
    rfl

theorem dictIncr_sum (l : List (String × Nat)) (k : String) :
    ((dictIncr l k).map (fun p => p.2)).sum
      = (l.map (fun p => p.2)).sum + 1 := by
  induction l with
  | nil => rfl
  | cons p rest ih =>
    unfold dictIncr
    by_cases hk : p.1 = k
    · rw [if_pos hk]; simp; omega
    · rw [if_neg hk]; simp [ih]; omega

theorem countKeys_sum_aux (ks : List String) :
    ∀ acc : List (String × Nat),
      ((ks.foldl dictIncr acc).map (fun p => p.2)).sum
        = (acc.map (fun p => p.2)).sum + ks.length := by
  induction ks with
  | nil => intro acc; simp
  | cons k rest ih =>
    intro acc
    rw [List.foldl_cons, ih (dictIncr acc k), dictIncr_sum]
    simp only [List.length_cons]
    omega

theorem countKeys_sum (ks : List String) :
    ((countKeys ks).map (fun p => p.2)).sum = ks.length := by
  unfold countKeys
  rw [countKeys_sum_aux]
  simp

end AqtJobNew

namespace AqtJobNew

/-- Claim C2: for every unit-state mapping, the aggregate status is the first
match of the precedence list, top to bottom: any Failed gives ERROR, else any
Cancelled gives CANCELLED, else any Running gives RUNNING, else all Queued
gives QUEUED, else all Finished gives DONE, and any other mixture gives
QUEUED. -/
theorem aggregate_status_precedence (statuses : List JobStatus) :
    ((∃ s ∈ statuses, s = JobStatus.error) →
        aggregateStatus statuses = JobStatus.error)
  ∧ ((¬ ∃ s ∈ statuses, s = JobStatus.error) →
     (∃ s ∈ statuses, s = JobStatus.cancelled) →
        aggregateStatus statuses = JobStatus.cancelled)
  ∧ ((¬ ∃ s ∈ statuses, s = JobStatus.error) →
     (¬ ∃ s ∈ statuses, s = JobStatus.cancelled) →
     (∃ s ∈ statuses, s = JobStatus.running) →
        aggregateStatus statuses = JobStatus.running)
  ∧ ((¬ ∃ s ∈ statuses, s = JobStatus.error) →
     (¬ ∃ s ∈ statuses, s = JobStatus.cancelled) →
     (¬ ∃ s ∈ statuses, s = JobStatus.running) →
     (∀ s ∈ statuses, s = JobStatus.queued) →
        aggregateStatus statuses = JobStatus.queued)
  ∧ ((¬ ∃ s ∈ statuses, s = JobStatus.error) →
     (¬ ∃ s ∈ statuses, s = JobStatus.cancelled) →
     (¬ ∃ s ∈ statuses, s = JobStatus.running) →
     (¬ ∀ s ∈ statuses, s = JobStatus.queued) →
     (∀ s ∈ statuses, s = JobStatus.done) →
        aggregateStatus statuses = JobStatus.done)
  ∧ ((¬ ∃ s ∈ statuses, s = JobStatus.error) →
     (¬ ∃ s ∈ statuses, s = JobStatus.cancelled) →
     (¬ ∃ s ∈ statuses, s = JobStatus.running) →
     (¬ ∀ s ∈ statuses, s = JobStatus.queued) →
     (¬ ∀ s ∈ statuses, s = JobStatus.done) →
        aggregateStatus statuses = JobStatus.queued) := by
  refine ⟨?_, ?_, ?_, ?_, ?_, ?_⟩
  · intro h1
    unfold aggregateStatus
    rw [if_pos ((any_status_iff _ _).mpr h1)]
  · intro h1 h2
    unfold aggregateStatus
    rw [any_status_false h1, if_neg Bool.false_ne_true,
      if_pos ((any_status_iff _ _).mpr h2)]
  · intro h1 h2 h3
    unfold aggregateStatus
    rw [any_status_false h1, any_status_false h2, if_neg Bool.false_ne_true,
      if_neg Bool.false_ne_true, if_pos ((any_status_iff _ _).mpr h3)]
  · intro h1 h2 h3 h4
    unfold aggregateStatus
    rw [any_status_false h1, any_status_false h2, any_status_false h3,
      if_neg Bool.false_ne_true, if_neg Bool.false_ne_true,
      if_neg Bool.false_ne_true, if_pos ((all_status_iff _ _).mpr h4)]
  · intro h1 h2 h3 h4 h5
    unfold aggregateStatus
    rw [any_status_false h1, any_status_false h2, any_status_false h3,
      all_status_false h4, if_neg Bool.false_ne_true, if_neg Bool.false_ne_true,
      if_neg Bool.false_ne_true, if_neg Bool.false_ne_true,
      if_pos ((all_status_iff _ _).mpr h5)]
  · intro h1 h2 h3 h4 h5
    unfold aggregateStatus
    rw [any_status_false h1, any_status_false h2, any_status_false h3,
      all_status_false h4, all_status_false h5]
    rfl

/-- Witness for C2: a batch with one Cancelled and one Finished unit
aggregates to CANCELLED (precedence rule 2). -/
theorem aggregate_status_precedence_w :
    aggregateStatus [JobStatus.done, JobStatus.cancelled] = JobStatus.cancelled :=
  (aggregate_status_precedence [JobStatus.done, JobStatus.cancelled]).2.1
    (by decide) (by decide)

/-- Claim C1, counterexample: a one-unit batch whose unit Failed has a
terminal, non-DONE aggregate status, and `result` raises `RuntimeError`
instead of returning a structured unsuccessful result. -/
theorem result_partial_failure_cex :
    jobStatuses [("j0", JobState.failed "boom")] = [JobStatus.error]
  ∧ aggregateStatus [JobStatus.error] = JobStatus.error
  ∧ JobStatus.error.isTerminal = true
  ∧ JobStatus.error ≠ JobStatus.done
  ∧ jobResult 100 [⟨1, "c0", [(0, 0)]⟩] [("j0", JobState.failed "boom")]
      = Except.error "An error occurred during at least one circuit evaluation." :=
  ⟨rfl, rfl, rfl, by decide, rfl⟩

/-- Claim C1, amended: whenever the aggregate status is not DONE (in
particular when it is terminal but not Finished), `result` raises
`RuntimeError` rather than returning a structured batch result. -/
theorem result_raises_unless_done (shots : Nat) (circuits : List CircuitInfo)
    (jobs : JobsMap) (h : aggregateStatus (jobStatuses jobs) ≠ JobStatus.done) :
    jobResult shots circuits jobs
      = Except.error "An error occurred during at least one circuit evaluation." := by
  unfold jobResult
  simp [h]

/-- Witness for the amended C1: a batch with one Cancelled unit. -/
theorem result_raises_unless_done_w :
    jobResult 1 [] [("j0", JobState.cancelled)]
      = Except.error "An error occurred during at least one circuit evaluation." :=
  result_raises_unless_done 1 [] [("j0", JobState.cancelled)] (by decide)

/-- Claim C3, counterexample: a unit in the terminal Finished state is moved
back to Queued by a poll-response update whose status string is "queued":
terminal states are not sticky. -/
theorem status_single_regression_cex :
    (JobState.finished [[1]]).statusOf.isTerminal = true
  ∧ refreshRound [("a", JobState.finished [[1]])]
      (fun _ => ⟨"queued", ApiResult.samples []⟩) = [("a", JobState.queued)]
  ∧ JobState.queued ≠ JobState.finished [[1]] :=
  ⟨rfl, rfl, by decide⟩

/-- Claim C3, amended: a poll-response update stores the state decoded from
the response regardless of the unit's prior state (terminal or not); legal-edge
monotonicity holds only if the remote never reports a regressed status. -/
theorem status_single_overwrites (prior newSt : JobState) (id : String)
    (resp : ApiResponse) (h : statusSingle resp = Except.ok newSt) :
    refreshRound [(id, prior)] (fun _ => resp) = [(id, newSt)] := by
  simp [refreshRound, h]

/-- Witness for the amended C3: a Cancelled unit is set to Running by an
"ongoing" response. -/
theorem status_single_overwrites_w :
    refreshRound [("a", JobState.cancelled)]
      (fun _ => ⟨"ongoing", ApiResult.text ""⟩) = [("a", JobState.ongoing)] :=
  status_single_overwrites JobState.cancelled JobState.ongoing "a"
    ⟨"ongoing", ApiResult.text ""⟩ rfl

/-- Claim C4, counterexample: a refresh round polls every entry of the jobs
dict, so a Cancelled (terminal) unit is polled again — unlike the spec-side
polled set, which omits it — and its state is overwritten by the response. -/
theorem refresh_polls_terminal_cex :
    JobState.cancelled.statusOf.isTerminal = true
  ∧ polledJobIds [("a", JobState.cancelled)] = ["a"]
  ∧ specPolledIds [("a", JobState.cancelled)] = []
  ∧ polledJobIds [("a", JobState.cancelled)]
      ≠ specPolledIds [("a", JobState.cancelled)]
  ∧ refreshRound [("a", JobState.cancelled)]
      (fun _ => ⟨"queued", ApiResult.text ""⟩) = [("a", JobState.queued)] :=
  ⟨rfl, rfl, rfl, by decide, rfl⟩

/-- Claim C4, amended: a refresh round issues a poll for every unit of the
batch regardless of its state (terminal units included); the spec-side
non-terminal polled set is always a subset of what is actually polled. -/
theorem refresh_polls_all_units (jobs : JobsMap) (id : String) (s : JobState)
    (h : (id, s) ∈ jobs) :
    id ∈ polledJobIds jobs ∧ specPolledIds jobs ⊆ polledJobIds jobs := by
  constructor
  · exact List.mem_map_of_mem (fun p => p.1) h
  · intro x hx
    simp only [specPolledIds, List.mem_map] at hx
    obtain ⟨p, hp, rfl⟩ := hx
    exact List.mem_map_of_mem _ (List.mem_of_mem_filter hp)

/-- Witness for the amended C4: the Finished unit "a" is polled. -/
theorem refresh_polls_all_units_w :
    "a" ∈ polledJobIds [("a", JobState.finished [])]
  ∧ specPolledIds [("a", JobState.finished [])]
      ⊆ polledJobIds [("a", JobState.finished [])] :=
  refresh_polls_all_units [("a", JobState.finished [])] "a"
    (JobState.finished []) (by decide)

/-- Claim C5, counterexample: the table [(0,0), (1,0)] maps both source
positions to destination 0 — not injective onto distinct destinations — yet
the encoder accepts it (its domain is exactly {0, 1}), instead of raising
the invalid-mapping error. -/
theorem shot_to_int_noninjective_cex :
    shotToInt [1, 1] [(0, 0), (1, 0)] = Except.ok 1
  ∧ ¬ (([(0, 0), (1, 0)] : List (Nat × Nat)).map (fun p => p.2)).Nodup :=
  ⟨rfl, by decide⟩

/-- Claim C5, amended: for a non-empty table, the encoder raises the
invalid-mapping error if and only if the table's domain is not exactly
{0, …, W-1}; duplicate destinations are accepted (later writes win),
not rejected. -/
theorem shot_to_int_domain_check (fluor : List Nat) (t : List (Nat × Nat))
    (h : t ≠ []) :
    (∃ e, shotToInt fluor t = Except.error e)
      ↔ ¬ (∀ k, k ∈ t.map (fun p => p.1) ↔ k < fluor.length) := by
  unfold shotToInt
  rw [if_pos h]
  by_cases hc : natSetEq (t.map (fun p => p.1)) (List.range fluor.length) = true
  · rw [if_neg (by simp [hc])]
    constructor
    · rintro ⟨e, he⟩
      exact Except.noConfusion he
    · intro hn
      exact absurd
        (fun k => ((natSetEq_true_iff _ _).mp hc k).trans List.mem_range) hn
  · rw [if_pos (Bool.eq_false_iff.mpr hc)]
    constructor
    · intro _ hall
      exact hc ((natSetEq_true_iff _ _).mpr
        (fun x => (hall x).trans List.mem_range.symm))
    · intro _
      exact ⟨_, rfl⟩

/-- Witness for the amended C5: the table [(1,0)] on a width-1 input has
domain {1} ≠ {0} and is rejected. -/
theorem shot_to_int_domain_check_w :
    ∃ e, shotToInt [1] [(1, 0)] = Except.error e :=
  (shot_to_int_domain_check [1] [(1, 0)] (by decide)).mpr
    (fun hall => absurd ((hall 1).mp (by decide)) (by decide))

/-- Claim C6: with no table, position 0 of the shot vector is the least
significant bit; with a valid table, the output register has width
max(destination)+1, each source bit lands in its mapped destination,
unwritten destinations stay zero, and the register is read little-endian;
[1,0,0] gives key "0x1", [0,0,1] gives "0x4", [0,1,1] gives "0x6". -/
theorem shot_to_int_encoding (fluor : List Nat) (t : List (Nat × Nat))
    (hne : t ≠ [])
    (hdom : natSetEq (t.map (fun p => p.1)) (List.range fluor.length) = true)
    (hnd : (t.map (fun p => p.2)).Nodup)
    (d : Nat) (hd : d ∉ t.map (fun p => p.2)) :
    shotToInt fluor [] = Except.ok (lsbValue fluor)
  ∧ shotToInt fluor t = Except.ok (lsbValue (applyWrites fluor t))
  ∧ (applyWrites fluor t).length = (t.map (fun p => p.2)).foldl Nat.max 0 + 1
  ∧ (applyWrites fluor t).getD d 0 = 0
  ∧ (∀ p ∈ t, (applyWrites fluor t).getD p.2 0 = fluor.getD p.1 0)
  ∧ shotKey [1, 0, 0] [] = Except.ok "0x1"
  ∧ shotKey [0, 0, 1] [] = Except.ok "0x4"
  ∧ shotKey [0, 1, 1] [] = Except.ok "0x6" := by
  refine ⟨?_, ?_, ?_, ?_, ?_, rfl, rfl, rfl⟩
  · unfold shotToInt
    rw [if_neg (by simp), cregValue_eq_lsbValue]
  · unfold shotToInt
    rw [if_pos hne, if_neg (by simp [hdom]), cregValue_eq_lsbValue]
  · unfold applyWrites
    rw [foldl_set_length, List.length_replicate]
  · unfold applyWrites
    rw [foldl_set_getD_notmem fluor t _ d hd, getD_replicate_zero]
  · intro p hp
    unfold applyWrites
    apply foldl_set_getD_mem fluor t _ hnd p hp
    rw [List.length_replicate]
    exact Nat.lt_succ_of_le (mem_le_foldl_max _ 0 p.2 (List.mem_map_of_mem _ hp))

/-- Witness for C6: the doctest input [0,0,1] with swap table
{0:0, 1:2, 2:1} encodes to 2. -/
theorem shot_to_int_encoding_w :
    shotToInt [0, 0, 1] [(0, 0), (1, 2), (2, 1)] = Except.ok 2 := by
  have h := shot_to_int_encoding [0, 0, 1] [(0, 0), (1, 2), (2, 1)]
    (by decide) (by decide) (by decide) 5 (by decide)
  exact h.2.1.trans (by rfl)

/-- Claim C7, counterexample: encoding [1,0,0] with table {0:1} does not
yield "0x2" — the domain check (must equal {0,1,2}) raises the
invalid-mapping error. -/
theorem remap_example_cex :
    shotToInt [1, 0, 0] [(0, 1)] = Except.error "Map must be injective." := rfl

/-- Claim C7, amended: the width-1 input [1] with table {0:1} yields key
"0x2" (output width 2); the width-3 input [1,0,0] with that table is
rejected because the table's domain is not {0,1,2}. -/
theorem remap_example_amended :
    shotKey [1] [(0, 1)] = Except.ok "0x2"
  ∧ (applyWrites [1] [(0, 1)]).length = 2
  ∧ shotToInt [1, 0, 0] [(0, 1)] = Except.error "Map must be injective." :=
  ⟨rfl, rfl, rfl⟩

/-- Claim C8, counterexample: for a 3-unit batch whose second unit failed,
`failed_jobs` is keyed by the remote job id ("j1"), not by the 0-indexed
unit ordinal (which would be the key 1). -/
theorem failed_jobs_keys_cex :
    failedJobs [("j0", JobState.finished []), ("j1", JobState.failed "boom"),
      ("j2", JobState.finished [])] = [("j1", "boom")]
  ∧ ("j1" : String) ≠ "1" :=
  ⟨rfl, by decide⟩

/-- Claim C8, amended: `failed_jobs` maps remote job ids (not ordinals) to
error texts, and contains exactly the units currently in the Failed state. -/
theorem failed_jobs_spec (jobs : JobsMap) (id err : String) :
    (id, err) ∈ failedJobs jobs ↔ (id, JobState.failed err) ∈ jobs := by
  unfold failedJobs
  rw [List.mem_filterMap]
  constructor
  · rintro ⟨⟨i, s⟩, hmem, hf⟩
    cases s <;> simp_all
  · intro hmem
    exact ⟨(id, JobState.failed err), hmem, rfl⟩

/-- Witness for the amended C8: the failed unit "j1" is reported. -/
theorem failed_jobs_spec_w :
    ("j1", "boom") ∈ failedJobs [("j0", JobState.finished []),
      ("j1", JobState.failed "boom")] :=
  (failed_jobs_spec [("j0", JobState.finished []),
    ("j1", JobState.failed "boom")] "j1" "boom").mpr (by decide)

/-- Claim C9: if every shot of a unit encodes successfully and the number of
shots equals the declared shot count, the values of the formatted counts sum
to the declared shot count. -/
theorem format_counts_shot_sum (shots : Nat) (samples : List (List Nat))
    (t : List (Nat × Nat)) (hlen : samples.length = shots)
    (h : ∀ s ∈ samples, (shotToInt s t).isOk = true) :
    ∃ m, formatCounts samples t = Except.ok m
       ∧ (m.map (fun p => p.2)).sum = shots := by
  obtain ⟨ks, hks, hkl⟩ := encodeAll_ok samples t h
  refine ⟨countKeys ks, ?_, ?_⟩
  · unfold formatCounts
    rw [hks]
    rfl
  · rw [countKeys_sum, hkl, hlen]

/-- Witness for C9: three shots give counts summing to 3. -/
theorem format_counts_shot_sum_w :
    ∃ m, formatCounts [[1, 0, 0], [0, 1, 0], [1, 0, 0]] [] = Except.ok m
       ∧ (m.map (fun p => p.2)).sum = 3 :=
  format_counts_shot_sum 3 [[1, 0, 0], [0, 1, 0], [1, 0, 0]] [] rfl (by decide)

/-- Claim C10: a batch with zero units aggregates to QUEUED (not DONE): the
all-Queued branch is checked before the all-Finished branch and both hold
vacuously on the empty mapping. -/
theorem aggregate_status_empty :
    aggregateStatus ([] : List JobStatus) = JobStatus.queued
  ∧ aggregateStatus ([] : List JobStatus) ≠ JobStatus.done := by
  exact ⟨rfl, by decide⟩

end AqtJobNew
